import Mathlib

/-! Verification of the fprime settings translator `cmake/settings/ini-to-stdio.py`.
The Python source is shallowly embedded: strings are lists of characters,
`str.replace` is modelled by `pyReplace` (all occurrences, left to right,
non-overlapping), and the `main` routine (dual-variant consistency check,
path-remapping derivation and emission of `NAME=VALUE;` records) is modelled
by `runMain`.  The settings resolver `IniSettings.load` and the filesystem
call `Path.resolve()` are external collaborators, so the two resolved
mappings and the resolved path are inputs of `runMain`. -/

namespace IniToStdio

/-- Python strings, modelled as lists of characters. -/
abbrev Str := List Char

/-- Concatenation of the lists produced by `f` over a list. -/
def catMap {α β : Type} (f : α → List β) : List α → List β
  | [] => []
  | x :: xs => f x ++ catMap f xs

/-- Scanner for Python `str.replace` with a non-empty pattern `o :: os`:
scans left to right; on a match it emits `new` and then skips the remaining
matched pattern characters (`skip` counts characters still to drop). -/
def pyReplaceAux (o : Char) (os new : Str) : Str → Nat → Str
  | [], _ => []
  | _ :: rest, skip + 1 => pyReplaceAux o os new rest skip
  | c :: rest, 0 =>
    if c = o ∧ os.isPrefixOf rest = true then
      new ++ pyReplaceAux o os new rest os.length
    else
      c :: pyReplaceAux o os new rest 0

/-- Python `s.replace(old, new)`: replaces all occurrences, left to right,
non-overlapping; an empty `old` inserts `new` at every position. -/
def pyReplace (s old new : Str) : Str :=
  match old with
  | [] => new ++ catMap (fun c => c :: new) s
  | o :: os => pyReplaceAux o os new s 0

/-- Line 29 of the source: `value.replace(";", "\\;")`. -/
def escapeSemis (v : Str) : Str := pyReplace v [';'] ['\\', ';']

/-- Lines 30–31 of the source: the single `REMAPPING` entry
`initial -> final` applied via `str.replace`. -/
def applyRemap (r : Str × Str) (v : Str) : Str := pyReplace v r.1 r.2

/-- `print_setting`: escapes `;`, applies the remapping, and prints
`SETTING=VALUE` followed by `ending` (default `";"` at the call sites). -/
def printSetting (remap : Str × Str) (setting value ending : Str) : Str :=
  setting ++ '=' :: (applyRemap remap (escapeSemis value)) ++ ending

/-- Python `str.strip` whitespace characters (ASCII range). -/
def isPySpace (c : Char) : Bool :=
  c == ' ' || c == '\t' || c == '\n' || c == '\r' || c == '\x0b' || c == '\x0c'

/-- Python `item.strip()`. -/
def pyStrip (s : Str) : Str :=
  ((s.dropWhile isPySpace).reverse.dropWhile isPySpace).reverse

/-- Python `s.split("=", 1)` as a pair: the part before the first `=`, and
the part after it — empty when there is no `=`, which matches the defaulted
`value` argument of `print_setting` when `splits` has one element. -/
def splitEq1 (s : Str) : Str × Str :=
  (s.takeWhile (fun c => !(c == '=')), (s.dropWhile (fun c => !(c == '='))).drop 1)

/-- `print_list_settings`: each item is stripped and split on the first `=`;
items with a non-empty key are printed with `print_setting`. -/
def printListSettings (remap : Str × Str) (items : List Str) : List Str :=
  catMap (fun item =>
    let splits := splitEq1 (pyStrip item)
    if splits.1 = [] then [] else [printSetting remap splits.1 splits.2 [';']]) items

/-- Python `value.split(sep)` for a one-character separator (keeps empty parts;
an empty string splits to one empty part). -/
def pySplitOn (sep : Char) : Str → List Str
  | [] => [[]]
  | c :: rest =>
    let r := pySplitOn sep rest
    if c = sep then [] :: r else (c :: r.headI) :: r.tail

/-- `os.path.commonprefix` of two strings: the character-wise longest common
starting run. -/
def commonStart : Str → Str → Str
  | a :: as, b :: bs => if a = b then a :: commonStart as bs else []
  | _, _ => []

/-- Python `s[: -1 * n]`: everything but the last `n` characters; for `n = 0`
this is `s[:0]`, the empty string. -/
def pySliceToNeg (s : Str) (n : Nat) : Str :=
  if n = 0 then [] else s.take (s.length - n)

/-- Line 75 of the source: the `common_suffix` of the given and the resolved
settings path, computed by reversing both, taking the common starting run
(`os.path.commonprefix`) and reversing it back. -/
def commonSuffix (iniPath iniRealPath : Str) : Str :=
  (commonStart iniPath.reverse iniRealPath.reverse).reverse

/-- Lines 76–78 of the source: the single `REMAPPING` entry maps the resolved
path with the common suffix sliced off to the given path with the common
suffix sliced off. -/
def deriveRemapping (iniPath iniRealPath : Str) : Str × Str :=
  (pySliceToNeg iniRealPath (commonSuffix iniPath iniRealPath).length,
   pySliceToNeg iniPath (commonSuffix iniPath iniRealPath).length)

/-- The generator-critical settings, in the insertion order of
`CMAKE_NEEDED_SETTINGS` (Python dicts iterate in insertion order). -/
inductive FieldName
  | framework_path
  | project_root
  | library_locations
  | default_cmake_options
  | install_destination
deriving DecidableEq, Fintype

/-- The ini key of a generator-critical field. -/
def FieldName.pyName : FieldName → Str
  | .framework_path => "framework_path".toList
  | .project_root => "project_root".toList
  | .library_locations => "library_locations".toList
  | .default_cmake_options => "default_cmake_options".toList
  | .install_destination => "install_destination".toList

/-- A resolved settings mapping restricted to the generator-critical fields,
with the value shape each source handler expects: scalar paths/strings for
the three `partial(print_setting, ...)` fields, an ordered list of paths for
`library_locations`, and multi-line text for `default_cmake_options`.
`none` models a key on which the mapping raises `KeyError`. -/
structure ResolvedSettings where
  framework_path : Option Str
  project_root : Option Str
  library_locations : Option (List Str)
  default_cmake_options : Option Str
  install_destination : Option Str
deriving DecidableEq

/-- The warning printed to stderr (with `end=";"`) on a `KeyError` for a
field; Python formats the `KeyError` as the quoted key. -/
def warnChunk (f : FieldName) : Str :=
  "[WARNING] Failed to load settings.ini field ".toList
    ++ '\'' :: f.pyName ++ '\'' :: ". Update fprime-util.".toList ++ [';']

/-- The message of the `assert` that guards variant independence. -/
def assertMsg : Str := "CMake can only parse unittest independent settings".toList

/-- One iteration of the loop over `CMAKE_NEEDED_SETTINGS`: a `KeyError` on
either variant lookup yields a warning and no output (`.ok` with an empty
stdout contribution), differing variant values trip the `assert`
(`.error`), and otherwise the field's handler runs on the build-variant
value. -/
def processField (remap : Str × Str) (s sut : ResolvedSettings) :
    FieldName → Except Str (List Str × List Str)
  | .framework_path =>
    match s.framework_path, sut.framework_path with
    | some v, some vut =>
      if v = vut then .ok ([printSetting remap "FPRIME_FRAMEWORK_PATH".toList v [';']], [])
      else .error assertMsg
    | _, _ => .ok ([], [warnChunk .framework_path])
  | .project_root =>
    match s.project_root, sut.project_root with
    | some v, some vut =>
      if v = vut then .ok ([printSetting remap "FPRIME_PROJECT_ROOT".toList v [';']], [])
      else .error assertMsg
    | _, _ => .ok ([], [warnChunk .project_root])
  | .library_locations =>
    match s.library_locations, sut.library_locations with
    | some v, some vut =>
      if v = vut then
        .ok ([printSetting remap "FPRIME_LIBRARY_LOCATIONS".toList (List.intercalate [';'] v) [';']], [])
      else .error assertMsg
    | _, _ => .ok ([], [warnChunk .library_locations])
  | .default_cmake_options =>
    match s.default_cmake_options, sut.default_cmake_options with
    | some v, some vut =>
      if v = vut then .ok (printListSettings remap (pySplitOn '\n' v), [])
      else .error assertMsg
    | _, _ => .ok ([], [warnChunk .default_cmake_options])
  | .install_destination =>
    match s.install_destination, sut.install_destination with
    | some v, some vut =>
      if v = vut then .ok ([printSetting remap "CMAKE_INSTALL_PREFIX".toList v [';']], [])
      else .error assertMsg
    | _, _ => .ok ([], [warnChunk .install_destination])

/-- The field order of the loop in `main`. -/
def allFields : List FieldName :=
  [.framework_path, .project_root, .library_locations, .default_cmake_options, .install_destination]

/-- The loop of `main`: accumulates stdout chunks and stderr chunks in order;
a tripped `assert` stops the loop, its message (printed by the `__main__`
handler with a trailing newline) is appended to stderr, and the flag records
the abort. -/
def processFields (remap : Str × Str) (s sut : ResolvedSettings) :
    List FieldName → List Str × List Str × Bool
  | [] => ([], [], false)
  | f :: fs =>
    match processField remap s sut f with
    | .error msg => ([], [msg ++ ['\n']], true)
    | .ok (o, e) =>
      let r := processFields remap s sut fs
      (o ++ r.1, e ++ r.2.1, r.2.2)

/-- Observable behaviour of one invocation: the stdout chunks, the stderr
chunks, and the exit status. -/
structure RunResult where
  out : List Str
  err : List Str
  exitCode : Nat
deriving DecidableEq

/-- `main` together with the `__main__` wrapper: derives the remapping from
the given and the resolved settings path, processes the fields in order and,
unless the `assert` aborted the run, appends the trailing
`FPRIME_SETTINGS_FILE` record (printed with `ending=""`) and exits 0; an
abort exits 1 after the exception message reaches stderr. -/
def runMain (iniPath iniRealPath : Str) (s sut : ResolvedSettings) : RunResult :=
  let remap := deriveRemapping iniPath iniRealPath
  let r := processFields remap s sut allFields
  if r.2.2 then ⟨r.1, r.2.1, 1⟩
  else ⟨r.1 ++ [printSetting remap "FPRIME_SETTINGS_FILE".toList iniPath []], r.2.1, 0⟩

/-- A field is present in both variants with differing values. -/
def fieldMismatchB (s sut : ResolvedSettings) : FieldName → Bool
  | .framework_path =>
    match s.framework_path, sut.framework_path with
    | some v, some vut => decide (v ≠ vut)
    | _, _ => false
  | .project_root =>
    match s.project_root, sut.project_root with
    | some v, some vut => decide (v ≠ vut)
    | _, _ => false
  | .library_locations =>
    match s.library_locations, sut.library_locations with
    | some v, some vut => decide (v ≠ vut)
    | _, _ => false
  | .default_cmake_options =>
    match s.default_cmake_options, sut.default_cmake_options with
    | some v, some vut => decide (v ≠ vut)
    | _, _ => false
  | .install_destination =>
    match s.install_destination, sut.install_destination with
    | some v, some vut => decide (v ≠ vut)
    | _, _ => false

/-- A field is absent from at least one of the two variant mappings. -/
def fieldAbsentB (s sut : ResolvedSettings) : FieldName → Bool
  | .framework_path =>
    match s.framework_path, sut.framework_path with
    | some _, some _ => false
    | _, _ => true
  | .project_root =>
    match s.project_root, sut.project_root with
    | some _, some _ => false
    | _, _ => true
  | .library_locations =>
    match s.library_locations, sut.library_locations with
    | some _, some _ => false
    | _, _ => true
  | .default_cmake_options =>
    match s.default_cmake_options, sut.default_cmake_options with
    | some _, some _ => false
    | _, _ => true
  | .install_destination =>
    match s.install_destination, sut.install_destination with
    | some _, some _ => false
    | _, _ => true

/-- The stdout chunks a field contributes when the run does not abort at it:
nothing when it is absent from either variant, otherwise the records its
handler prints for the build-variant value. -/
def fieldOut (remap : Str × Str) (s sut : ResolvedSettings) : FieldName → List Str
  | .framework_path =>
    match s.framework_path, sut.framework_path with
    | some v, some _ => [printSetting remap "FPRIME_FRAMEWORK_PATH".toList v [';']]
    | _, _ => []
  | .project_root =>
    match s.project_root, sut.project_root with
    | some v, some _ => [printSetting remap "FPRIME_PROJECT_ROOT".toList v [';']]
    | _, _ => []
  | .library_locations =>
    match s.library_locations, sut.library_locations with
    | some v, some _ => [printSetting remap "FPRIME_LIBRARY_LOCATIONS".toList (List.intercalate [';'] v) [';']]
    | _, _ => []
  | .default_cmake_options =>
    match s.default_cmake_options, sut.default_cmake_options with
    | some v, some _ => printListSettings remap (pySplitOn '\n' v)
    | _, _ => []
  | .install_destination =>
    match s.install_destination, sut.install_destination with
    | some v, some _ => [printSetting remap "CMAKE_INSTALL_PREFIX".toList v [';']]
    | _, _ => []

/-- The stderr chunks a field contributes when the run does not abort at it. -/
def fieldErr (s sut : ResolvedSettings) (f : FieldName) : List Str :=
  if fieldAbsentB s sut f then [warnChunk f] else []

/-- The unescaping step of the spec's unescaping-aware parser: maps the
two-character sequence `\;` back to `;` (the inverse direction of the
escaping on line 29 of the source). -/
def specUnescape (v : Str) : Str := pyReplace v ['\\', ';'] [';']

/-- Spec description of the records emitted for a `default_cmake_options`
value: the value is split on newlines, and every line whose stripped key
part (before the first `=`) is non-empty yields one standalone `KEY=VALUE;`
record under its own key, the value part being escaped and remapped like any
other emitted value; lines with an empty key part yield no record. -/
def dcoRecordsSpec (remap : Str × Str) (v : Str) : List Str :=
  (pySplitOn '\n' v).filterMap (fun line =>
    let st := pyStrip line
    let key := st.takeWhile (fun c => !(c == '='))
    if key = [] then none
    else
      some (key ++ '=' ::
        applyRemap remap (escapeSemis ((st.dropWhile (fun c => !(c == '='))).drop 1)) ++ [';']))

/-! Basic lemmas about the embedded Python primitives. -/

theorem catMap_nil {α β : Type} (f : α → List β) : catMap f [] = [] := rfl

theorem catMap_cons {α β : Type} (f : α → List β) (x : α) (xs : List α) :
    catMap f (x :: xs) = f x ++ catMap f xs := rfl

theorem catMap_singleton {α : Type} : ∀ l : List α, catMap (fun c => [c]) l = l
  | [] => rfl
  | x :: xs => by rw [catMap_cons, catMap_singleton xs]; rfl

theorem mem_catMap {α β : Type} {f : α → List β} {x : β} {a : α} :
    ∀ {l : List α}, a ∈ l → x ∈ f a → x ∈ catMap f l := by
  intro l
  induction l with
  | nil => intro h; exact absurd h (List.not_mem_nil a)
  | cons b t ih =>
    intro ha hx
    rcases List.mem_cons.mp ha with h | h
    · subst h; exact List.mem_append.mpr (Or.inl hx)
    · exact List.mem_append.mpr (Or.inr (ih h hx))

theorem pyReplaceAux_skip (o : Char) (os new : Str) (c : Char) (rest : Str) (k : Nat) :
    pyReplaceAux o os new (c :: rest) (k + 1) = pyReplaceAux o os new rest k := rfl

theorem pyReplaceAux_zero (o : Char) (os new : Str) (c : Char) (rest : Str) :
    pyReplaceAux o os new (c :: rest) 0 =
      if c = o ∧ os.isPrefixOf rest = true then
        new ++ pyReplaceAux o os new rest os.length
      else c :: pyReplaceAux o os new rest 0 := rfl

theorem applyRemap_nilRule : ∀ v : Str, applyRemap ([], []) v = v := by
  intro v
  show [] ++ catMap (fun c => c :: []) v = v
  rw [List.nil_append]
  exact catMap_singleton v

/-! Characterisation of the per-field loop. -/

theorem mem_allFields (f : FieldName) : f ∈ allFields := by
  cases f <;> simp [allFields]

theorem processField_eq (remap : Str × Str) (s sut : ResolvedSettings) (f : FieldName) :
    processField remap s sut f =
      if fieldMismatchB s sut f then .error assertMsg
      else .ok (fieldOut remap s sut f, fieldErr s sut f) := by
  cases f
  case framework_path =>
    cases hs : s.framework_path <;> cases hu : sut.framework_path <;>
      simp only [processField, fieldMismatchB, fieldOut, fieldErr, fieldAbsentB, hs, hu] <;>
      try rfl
    rename_i v w
    by_cases hv : v = w <;> simp [hv]
  case project_root =>
    cases hs : s.project_root <;> cases hu : sut.project_root <;>
      simp only [processField, fieldMismatchB, fieldOut, fieldErr, fieldAbsentB, hs, hu] <;>
      try rfl
    rename_i v w
    by_cases hv : v = w <;> simp [hv]
  case library_locations =>
    cases hs : s.library_locations <;> cases hu : sut.library_locations <;>
      simp only [processField, fieldMismatchB, fieldOut, fieldErr, fieldAbsentB, hs, hu] <;>
      try rfl
    rename_i v w
    by_cases hv : v = w <;> simp [hv]
  case default_cmake_options =>
    cases hs : s.default_cmake_options <;> cases hu : sut.default_cmake_options <;>
      simp only [processField, fieldMismatchB, fieldOut, fieldErr, fieldAbsentB, hs, hu] <;>
      try rfl
    rename_i v w
    by_cases hv : v = w <;> simp [hv]
  case install_destination =>
    cases hs : s.install_destination <;> cases hu : sut.install_destination <;>
      simp only [processField, fieldMismatchB, fieldOut, fieldErr, fieldAbsentB, hs, hu] <;>
      try rfl
    rename_i v w
    by_cases hv : v = w <;> simp [hv]

theorem processFields_ok (remap : Str × Str) (s sut : ResolvedSettings) (l : List FieldName)
    (h : ∀ f ∈ l, fieldMismatchB s sut f = false) :
    processFields remap s sut l =
      (catMap (fieldOut remap s sut) l, catMap (fieldErr s sut) l, false) := by
  induction l with
  | nil => rfl
  | cons f fs ih =>
    have hf : fieldMismatchB s sut f = false := h f (List.mem_cons_self f fs)
    have hrest : ∀ g ∈ fs, fieldMismatchB s sut g = false :=
      fun g hg => h g (List.mem_cons_of_mem f hg)
    simp [processFields, processField_eq, hf, ih hrest, catMap_cons]

theorem processFields_abort (remap : Str × Str) (s sut : ResolvedSettings)
    (l1 : List FieldName) (g : FieldName) (l2 : List FieldName)
    (h1 : ∀ f ∈ l1, fieldMismatchB s sut f = false)
    (hg : fieldMismatchB s sut g = true) :
    processFields remap s sut (l1 ++ g :: l2) =
      (catMap (fieldOut remap s sut) l1,
        catMap (fieldErr s sut) l1 ++ [assertMsg ++ ['\n']], true) := by
  induction l1 with
  | nil => simp [processFields, processField_eq, hg, catMap_nil]
  | cons f fs ih =>
    have hf : fieldMismatchB s sut f = false := h1 f (List.mem_cons_self f fs)
    have hrest : ∀ x ∈ fs, fieldMismatchB s sut x = false :=
      fun x hx => h1 x (List.mem_cons_of_mem f hx)
    simp [processFields, processField_eq, hf, ih hrest, catMap_cons]

theorem exists_first_true {α : Type} (P : α → Bool) :
    ∀ l : List α, (∃ f ∈ l, P f = true) →
      ∃ l1 g l2, l = l1 ++ g :: l2 ∧ P g = true ∧ ∀ x ∈ l1, P x = false := by
  intro l
  induction l with
  | nil =>
    rintro ⟨f, hf, _⟩
    exact absurd hf (List.not_mem_nil f)
  | cons a t ih =>
    rintro ⟨f, hf, hPf⟩
    by_cases ha : P a = true
    · exact ⟨[], a, t, rfl, ha, by simp⟩
    · have haf : P a = false := by simpa using ha
      have hft : f ∈ t := by
        rcases List.mem_cons.mp hf with h | h
        · exfalso; rw [h] at hPf; rw [hPf] at haf; cases haf
        · exact h
      obtain ⟨l1, g, l2, heq, hg, hl1⟩ := ih ⟨f, hft, hPf⟩
      refine ⟨a :: l1, g, l2, by rw [heq]; rfl, hg, ?_⟩
      intro x hx
      rcases List.mem_cons.mp hx with h | h
      · rw [h]; exact haf
      · exact hl1 x h

theorem runMain_ok (iniPath iniRealPath : Str) (s sut : ResolvedSettings)
    (h : ∀ g ∈ allFields, fieldMismatchB s sut g = false) :
    runMain iniPath iniRealPath s sut =
      ⟨catMap (fieldOut (deriveRemapping iniPath iniRealPath) s sut) allFields
          ++ [printSetting (deriveRemapping iniPath iniRealPath)
                "FPRIME_SETTINGS_FILE".toList iniPath []],
        catMap (fieldErr s sut) allFields, 0⟩ := by
  have hp := processFields_ok (deriveRemapping iniPath iniRealPath) s sut allFields h
  simp [runMain, hp]

/-! Lemmas about the semicolon escaping of `print_setting`. -/

theorem escapeSemis_eq_catMap (v : Str) :
    escapeSemis v = catMap (fun c => if c = ';' then ['\\', ';'] else [c]) v := by
  induction v with
  | nil => rfl
  | cons c rest ih =>
    show pyReplaceAux ';' [] ['\\', ';'] (c :: rest) 0 = _
    rw [pyReplaceAux_zero]
    by_cases hc : c = ';'
    · rw [if_pos ⟨hc, List.isPrefixOf_nil_left⟩, catMap_cons, if_pos hc]
      exact congrArg _ ih
    · rw [if_neg (fun hand => hc hand.1), catMap_cons, if_neg hc]
      exact congrArg _ ih

theorem escapeSemis_cons (c : Char) (rest : Str) :
    escapeSemis (c :: rest) = (if c = ';' then ['\\', ';'] else [c]) ++ escapeSemis rest := by
  rw [escapeSemis_eq_catMap, catMap_cons, escapeSemis_eq_catMap]

theorem escapeSemis_head_ne_semi (v : Str) :
    [';'].isPrefixOf (escapeSemis v) = false := by
  cases v with
  | nil => rfl
  | cons c rest =>
    rw [escapeSemis_cons]
    by_cases hc : c = ';'
    · rw [if_pos hc]
      rfl
    · rw [if_neg hc]
      show ((';' == c) && List.isPrefixOf [] (escapeSemis rest)) = false
      have : (';' == c) = false := by
        simp only [beq_eq_false_iff_ne, ne_eq]
        exact fun h => hc h.symm
      rw [this, Bool.false_and]

theorem specUnescape_escapeSemis : ∀ v : Str, specUnescape (escapeSemis v) = v := by
  intro v
  induction v with
  | nil => rfl
  | cons c rest ih =>
    rw [escapeSemis_cons]
    by_cases hc : c = ';'
    · rw [if_pos hc, hc]
      show pyReplaceAux '\\' [';'] [';'] ('\\' :: ';' :: escapeSemis rest) 0 = ';' :: rest
      rw [pyReplaceAux_zero, if_pos ⟨rfl, by simp [List.isPrefixOf]⟩]
      show ';' :: pyReplaceAux '\\' [';'] [';'] (';' :: escapeSemis rest) 1 = ';' :: rest
      rw [pyReplaceAux_skip]
      exact congrArg _ ih
    · rw [if_neg hc]
      show pyReplaceAux '\\' [';'] [';'] (c :: escapeSemis rest) 0 = c :: rest
      rw [pyReplaceAux_zero]
      by_cases hb : c = '\\'
      · rw [if_neg (fun hand => by
          have := hand.2
          rw [escapeSemis_head_ne_semi rest] at this
          cases this)]
        exact congrArg _ ih
      · rw [if_neg (fun hand => hb hand.1)]
        exact congrArg _ ih

theorem escapeSemis_injective : Function.Injective escapeSemis := by
  intro a b h
  rw [← specUnescape_escapeSemis a, h, specUnescape_escapeSemis b]

/-! Lemmas about `str.replace` on values without an occurrence of the pattern. -/

theorem pyReplaceAux_eq_self_of_not_infix (o : Char) (os new : Str) :
    ∀ w : Str, ¬ ((o :: os) <:+: w) → pyReplaceAux o os new w 0 = w := by
  intro w
  induction w with
  | nil => intro _; rfl
  | cons c rest ih =>
    intro h
    rw [pyReplaceAux_zero]
    have hcond : ¬ (c = o ∧ os.isPrefixOf rest = true) := by
      rintro ⟨hc, hp⟩
      refine h ?_
      have hpre : (o :: os) <+: (c :: rest) := by
        obtain ⟨t, ht⟩ := List.isPrefixOf_iff_prefix.mp hp
        exact ⟨t, by rw [hc, List.cons_append, ht]⟩
      exact hpre.isInfix
    rw [if_neg hcond]
    refine congrArg _ (ih fun hl => h ?_)
    obtain ⟨u, t, hut⟩ := hl
    exact ⟨c :: u, t, by rw [← hut]; rfl⟩

theorem applyRemap_eq_self_of_not_infix (r : Str × Str) (v : Str)
    (h : ¬ r.1 <:+: v) : applyRemap r v = v := by
  rcases r with ⟨old, new⟩
  cases old with
  | nil => exact absurd ⟨[], v, rfl⟩ h
  | cons o os => exact pyReplaceAux_eq_self_of_not_infix o os new v h

/-! Lemmas about `os.path.commonprefix` and the derived common suffix. -/

theorem commonStart_left : ∀ a b : Str, commonStart a b <+: a := by
  intro a
  induction a with
  | nil => intro b; exact ⟨[], rfl⟩
  | cons c as ih =>
    intro b
    cases b with
    | nil => exact ⟨c :: as, rfl⟩
    | cons d bs =>
      by_cases h : c = d
      · rw [commonStart, if_pos h]
        obtain ⟨r, hr⟩ := ih bs
        exact ⟨r, by rw [List.cons_append, hr]⟩
      · rw [commonStart, if_neg h]
        exact ⟨c :: as, rfl⟩

theorem commonStart_right : ∀ a b : Str, commonStart a b <+: b := by
  intro a
  induction a with
  | nil => intro b; exact ⟨b, rfl⟩
  | cons c as ih =>
    intro b
    cases b with
    | nil => exact ⟨[], rfl⟩
    | cons d bs =>
      by_cases h : c = d
      · rw [commonStart, if_pos h, h]
        obtain ⟨r, hr⟩ := ih bs
        exact ⟨r, by rw [List.cons_append, hr]⟩
      · rw [commonStart, if_neg h]
        exact ⟨d :: bs, rfl⟩

theorem commonStart_longest :
    ∀ (t a b : Str), t <+: a → t <+: b → t.length ≤ (commonStart a b).length := by
  intro t
  induction t with
  | nil => intro a b _ _; exact Nat.zero_le _
  | cons c t' ih =>
    intro a b ha hb
    obtain ⟨r1, hr1⟩ := ha
    obtain ⟨r2, hr2⟩ := hb
    rw [← hr1, ← hr2, List.cons_append, List.cons_append, commonStart, if_pos rfl]
    exact Nat.succ_le_succ (ih (t' ++ r1) (t' ++ r2) ⟨r1, rfl⟩ ⟨r2, rfl⟩)

theorem reverse_pfx_iff_sfx (t s : Str) : t.reverse <+: s.reverse ↔ t <:+ s := by
  constructor
  · rintro ⟨u, hu⟩
    refine ⟨u.reverse, ?_⟩
    have h2 := congrArg List.reverse hu
    rw [List.reverse_append, List.reverse_reverse, List.reverse_reverse] at h2
    exact h2
  · rintro ⟨u, hu⟩
    refine ⟨u.reverse, ?_⟩
    rw [← hu, List.reverse_append]

theorem commonSuffix_sfx_left (given resolved : Str) :
    commonSuffix given resolved <:+ given := by
  rw [← reverse_pfx_iff_sfx, commonSuffix, List.reverse_reverse]
  exact commonStart_left given.reverse resolved.reverse

theorem commonSuffix_sfx_right (given resolved : Str) :
    commonSuffix given resolved <:+ resolved := by
  rw [← reverse_pfx_iff_sfx, commonSuffix, List.reverse_reverse]
  exact commonStart_right given.reverse resolved.reverse

theorem commonSuffix_longest (given resolved t : Str) (h1 : t <:+ given)
    (h2 : t <:+ resolved) : t.length ≤ (commonSuffix given resolved).length := by
  rw [← reverse_pfx_iff_sfx] at h1 h2
  have h := commonStart_longest t.reverse given.reverse resolved.reverse h1 h2
  rw [List.length_reverse] at h
  rw [commonSuffix, List.length_reverse]
  exact h

/-! Helpers relating the field predicates to agreement and absence. -/

theorem fieldMismatchB_of_agree {s sut : ResolvedSettings}
    (h1 : s.framework_path = sut.framework_path)
    (h2 : s.project_root = sut.project_root)
    (h3 : s.library_locations = sut.library_locations)
    (h4 : s.default_cmake_options = sut.default_cmake_options)
    (h5 : s.install_destination = sut.install_destination) :
    ∀ f : FieldName, fieldMismatchB s sut f = false := by
  intro f
  cases f
  case framework_path => cases hu : sut.framework_path <;> simp [fieldMismatchB, h1, hu]
  case project_root => cases hu : sut.project_root <;> simp [fieldMismatchB, h2, hu]
  case library_locations => cases hu : sut.library_locations <;> simp [fieldMismatchB, h3, hu]
  case default_cmake_options =>
    cases hu : sut.default_cmake_options <;> simp [fieldMismatchB, h4, hu]
  case install_destination =>
    cases hu : sut.install_destination <;> simp [fieldMismatchB, h5, hu]

theorem fieldOut_eq_nil_of_absent (remap : Str × Str) {s sut : ResolvedSettings}
    {f : FieldName} (h : fieldAbsentB s sut f = true) : fieldOut remap s sut f = [] := by
  cases f
  case framework_path =>
    cases hs : s.framework_path <;> cases hu : sut.framework_path <;>
      simp_all [fieldAbsentB, fieldOut]
  case project_root =>
    cases hs : s.project_root <;> cases hu : sut.project_root <;>
      simp_all [fieldAbsentB, fieldOut]
  case library_locations =>
    cases hs : s.library_locations <;> cases hu : sut.library_locations <;>
      simp_all [fieldAbsentB, fieldOut]
  case default_cmake_options =>
    cases hs : s.default_cmake_options <;> cases hu : sut.default_cmake_options <;>
      simp_all [fieldAbsentB, fieldOut]
  case install_destination =>
    cases hs : s.install_destination <;> cases hu : sut.install_destination <;>
      simp_all [fieldAbsentB, fieldOut]

theorem fieldErr_of_absent {s sut : ResolvedSettings} {f : FieldName}
    (h : fieldAbsentB s sut f = true) : fieldErr s sut f = [warnChunk f] := by
  rw [fieldErr, if_pos h]

theorem catMap_if_filterMap {α β : Type} (p : α → Prop) [DecidablePred p] (g : α → β) :
    ∀ l : List α, catMap (fun x => if p x then [] else [g x]) l
      = l.filterMap (fun x => if p x then none else some (g x)) := by
  intro l
  induction l with
  | nil => rfl
  | cons x xs ih =>
    rw [catMap_cons, List.filterMap_cons]
    by_cases h : p x <;> simp [h, ih]

theorem settingsFileRecord (r : Str × Str) (p : Str) :
    printSetting r "FPRIME_SETTINGS_FILE".toList p [] =
      "FPRIME_SETTINGS_FILE=".toList ++ applyRemap r (escapeSemis p) := by
  show "FPRIME_SETTINGS_FILE".toList ++ '=' :: applyRemap r (escapeSemis p) ++ [] = _
  rw [List.append_nil]
  rfl

/-! The claims. -/

/-- C5: the remapping rule is derived by reversing both paths, taking their
longest common starting run (`os.path.commonprefix`), reversing it back —
this really is the longest common suffix of the two paths — and slicing that
suffix off both originals, yielding the pair (resolved-path head →
given-path head); when the paths share no common suffix the Python slice
`s[: -1 * 0] = s[:0]` degenerates the rule to replacing the empty string by
the empty string, which is a no-op replacement. -/
theorem C5_remapping_derivation (given resolved : Str) :
    (commonSuffix given resolved <:+ given ∧
      commonSuffix given resolved <:+ resolved ∧
      ∀ t : Str, t <:+ given → t <:+ resolved →
        t.length ≤ (commonSuffix given resolved).length) ∧
    deriveRemapping given resolved =
      (if (commonSuffix given resolved).length = 0 then ([], [])
       else
        (resolved.take (resolved.length - (commonSuffix given resolved).length),
         given.take (given.length - (commonSuffix given resolved).length))) ∧
    (∀ v : Str, applyRemap ([], []) v = v) := by
  refine ⟨⟨commonSuffix_sfx_left given resolved, commonSuffix_sfx_right given resolved,
    fun t h1 h2 => commonSuffix_longest given resolved t h1 h2⟩, ?_, applyRemap_nilRule⟩
  by_cases h : (commonSuffix given resolved).length = 0 <;>
    simp [deriveRemapping, pySliceToNeg, h]

/-- C6: the escaping of line 29 rewrites every literal `;` of a value to the
two-character sequence `\;`; the spec's unescaping-aware parser (mapping `\;`
back to `;` with the same left-to-right replacement) recovers the original
value exactly, and therefore the escaping is injective on all values. -/
theorem C6_escape_roundtrip :
    (∀ v : Str, escapeSemis v = catMap (fun c => if c = ';' then ['\\', ';'] else [c]) v) ∧
    (∀ v : Str, specUnescape (escapeSemis v) = v) ∧
    Function.Injective escapeSemis :=
  ⟨escapeSemis_eq_catMap, specUnescape_escapeSemis, escapeSemis_injective⟩

/-- C8 counterexample: the remapping rule derived from given path `c` and
resolved path `abc` is `ab → ` (empty); the value `aabb` contains the
resolved prefix `ab`, one application of the rule gives `ab`, and a second
application gives the empty string — the substring replacement is not
idempotent on remapped values. -/
theorem C8_counterexample :
    deriveRemapping "c".toList "abc".toList = ("ab".toList, []) ∧
    ("ab".toList <:+: "aabb".toList) ∧
    applyRemap (deriveRemapping "c".toList "abc".toList) "aabb".toList = "ab".toList ∧
    applyRemap (deriveRemapping "c".toList "abc".toList)
        (applyRemap (deriveRemapping "c".toList "abc".toList) "aabb".toList) ≠
      applyRemap (deriveRemapping "c".toList "abc".toList) "aabb".toList := by
  refine ⟨by decide, ⟨['a'], ['b'], by decide⟩, by decide, by decide⟩

/-- C8 (amended): applying the derived remapping rule twice agrees with
applying it once for every value whose once-remapped form no longer contains
the resolved-path prefix; without that proviso a second application can
change the value again, because a replacement can create a fresh occurrence
of the resolved prefix. -/
theorem C8_amended (given resolved v : Str)
    (h : ¬ (deriveRemapping given resolved).1 <:+:
        applyRemap (deriveRemapping given resolved) v) :
    applyRemap (deriveRemapping given resolved)
        (applyRemap (deriveRemapping given resolved) v) =
      applyRemap (deriveRemapping given resolved) v :=
  applyRemap_eq_self_of_not_infix _ _ h

/-- C8 witness: for the rule derived from `c`/`abc` and the value `xaby`,
the once-remapped value `xy` contains no further occurrence of `ab`, and a
second application leaves it unchanged. -/
theorem C8_amended_witness :
    (¬ (deriveRemapping "c".toList "abc".toList).1 <:+:
        applyRemap (deriveRemapping "c".toList "abc".toList) "xaby".toList) ∧
    applyRemap (deriveRemapping "c".toList "abc".toList)
        (applyRemap (deriveRemapping "c".toList "abc".toList) "xaby".toList) =
      applyRemap (deriveRemapping "c".toList "abc".toList) "xaby".toList :=
  ⟨by decide, C8_amended "c".toList "abc".toList "xaby".toList (by decide)⟩

/-- C9: the records emitted for a multi-line `default_cmake_options` value
are obtained by splitting the value on newlines and re-emitting every line
whose stripped key part (before the first `=`) is non-empty as its own
standalone `KEY=VALUE;` record under its own key (not nested under a parent
setting name); lines whose key part is empty produce no record. -/
theorem C9_default_options_records (remap : Str × Str) (v : Str) :
    printListSettings remap (pySplitOn '\n' v) = dcoRecordsSpec remap v := by
  show catMap (fun item =>
      if (splitEq1 (pyStrip item)).1 = [] then []
      else [printSetting remap (splitEq1 (pyStrip item)).1 (splitEq1 (pyStrip item)).2 [';']])
    (pySplitOn '\n' v) = _
  rw [catMap_if_filterMap (fun item => (splitEq1 (pyStrip item)).1 = [])
    (fun item => printSetting remap (splitEq1 (pyStrip item)).1 (splitEq1 (pyStrip item)).2 [';'])]
  rfl

/-- C10: in `print_setting` the semicolon escaping is applied to the value
before the remapping substitution (order fact, plus a run showing the
consequence: a `;` contained in the remapping's replacement string — the
as-given path prefix `a;b` — reaches the output unescaped, while the
trailing settings-file record still has its own `;` escaped); applying the
two steps in the opposite order would give a different value. -/
theorem C10_escape_before_remap :
    (∀ (remap : Str × Str) (name v ending : Str),
      printSetting remap name v ending =
        name ++ '=' :: pyReplace (pyReplace v [';'] ['\\', ';']) remap.1 remap.2 ++ ending) ∧
    deriveRemapping "a;b/s.ini".toList "/r/s.ini".toList = ("/r".toList, "a;b".toList) ∧
    (runMain "a;b/s.ini".toList "/r/s.ini".toList
        ⟨some "/r/lib".toList, none, none, none, none⟩
        ⟨some "/r/lib".toList, none, none, none, none⟩).out =
      ["FPRIME_FRAMEWORK_PATH=a;b/lib;".toList,
       "FPRIME_SETTINGS_FILE=a\\;b/s.ini".toList] ∧
    escapeSemis (applyRemap ("/r".toList, "a;b".toList) "/r/lib".toList) ≠
      applyRemap ("/r".toList, "a;b".toList) (escapeSemis "/r/lib".toList) :=
  ⟨fun _ _ _ _ => rfl, by decide, by decide, by decide⟩

/-- C1 counterexample: with both variants agreeing on all five fields and
`default_cmake_options = "A=1\nB=2"`, the run exits 0 but emits seven
records — the multi-line options field alone contributes two records — so
the output is not one record per present field (which would give six records
including the trailing settings-file record). -/
theorem C1_counterexample :
    (runMain "/s.ini".toList "/s.ini".toList
        ⟨some "fw".toList, some "pr".toList, some ["l1".toList, "l2".toList],
          some "A=1\nB=2".toList, some "inst".toList⟩
        ⟨some "fw".toList, some "pr".toList, some ["l1".toList, "l2".toList],
          some "A=1\nB=2".toList, some "inst".toList⟩).exitCode = 0 ∧
    (runMain "/s.ini".toList "/s.ini".toList
        ⟨some "fw".toList, some "pr".toList, some ["l1".toList, "l2".toList],
          some "A=1\nB=2".toList, some "inst".toList⟩
        ⟨some "fw".toList, some "pr".toList, some ["l1".toList, "l2".toList],
          some "A=1\nB=2".toList, some "inst".toList⟩).out =
      ["FPRIME_FRAMEWORK_PATH=fw;".toList, "FPRIME_PROJECT_ROOT=pr;".toList,
       "FPRIME_LIBRARY_LOCATIONS=l1\\;l2;".toList, "A=1;".toList, "B=2;".toList,
       "CMAKE_INSTALL_PREFIX=inst;".toList, "FPRIME_SETTINGS_FILE=/s.ini".toList] ∧
    ¬ (runMain "/s.ini".toList "/s.ini".toList
        ⟨some "fw".toList, some "pr".toList, some ["l1".toList, "l2".toList],
          some "A=1\nB=2".toList, some "inst".toList⟩
        ⟨some "fw".toList, some "pr".toList, some ["l1".toList, "l2".toList],
          some "A=1\nB=2".toList, some "inst".toList⟩).out.length = 6 := by
  refine ⟨by decide, by decide, by decide⟩

/-- C1 (amended): when the two variants agree on every generator-critical
field, the tool exits 0 and the output is, in the fixed order
`framework_path`, `project_root`, `library_locations`,
`default_cmake_options`, `install_destination`, the records of the present
fields — exactly one record for each present field other than
`default_cmake_options`, which contributes one record per non-empty-key line
of its value — followed by one trailing `FPRIME_SETTINGS_FILE` record. -/
theorem C1_amended (iniPath iniRealPath : Str) (s sut : ResolvedSettings)
    (h1 : s.framework_path = sut.framework_path)
    (h2 : s.project_root = sut.project_root)
    (h3 : s.library_locations = sut.library_locations)
    (h4 : s.default_cmake_options = sut.default_cmake_options)
    (h5 : s.install_destination = sut.install_destination) :
    (runMain iniPath iniRealPath s sut).exitCode = 0 ∧
    (runMain iniPath iniRealPath s sut).out =
      catMap (fieldOut (deriveRemapping iniPath iniRealPath) s sut) allFields
        ++ [printSetting (deriveRemapping iniPath iniRealPath)
              "FPRIME_SETTINGS_FILE".toList iniPath []] ∧
    (∀ f : FieldName, f ≠ FieldName.default_cmake_options →
      (fieldOut (deriveRemapping iniPath iniRealPath) s sut f).length =
        if fieldAbsentB s sut f then 0 else 1) := by
  have hnm := fieldMismatchB_of_agree h1 h2 h3 h4 h5
  have hr := runMain_ok iniPath iniRealPath s sut (fun g _ => hnm g)
  refine ⟨by rw [hr], by rw [hr], ?_⟩
  intro f hf
  cases f
  case framework_path =>
    cases hs : s.framework_path <;> cases hu : sut.framework_path <;>
      simp [fieldOut, fieldAbsentB, hs, hu]
  case project_root =>
    cases hs : s.project_root <;> cases hu : sut.project_root <;>
      simp [fieldOut, fieldAbsentB, hs, hu]
  case library_locations =>
    cases hs : s.library_locations <;> cases hu : sut.library_locations <;>
      simp [fieldOut, fieldAbsentB, hs, hu]
  case default_cmake_options => exact absurd rfl hf
  case install_destination =>
    cases hs : s.install_destination <;> cases hu : sut.install_destination <;>
      simp [fieldOut, fieldAbsentB, hs, hu]

/-- C1 witness: a concrete agreeing pair with all five fields present. -/
theorem C1_amended_witness :
    (runMain "/s.ini".toList "/s.ini".toList
        ⟨some "fw".toList, some "pr".toList, some ["l1".toList],
          some "A=1".toList, some "inst".toList⟩
        ⟨some "fw".toList, some "pr".toList, some ["l1".toList],
          some "A=1".toList, some "inst".toList⟩).exitCode = 0 ∧
    (runMain "/s.ini".toList "/s.ini".toList
        ⟨some "fw".toList, some "pr".toList, some ["l1".toList],
          some "A=1".toList, some "inst".toList⟩
        ⟨some "fw".toList, some "pr".toList, some ["l1".toList],
          some "A=1".toList, some "inst".toList⟩).out =
      catMap (fieldOut (deriveRemapping "/s.ini".toList "/s.ini".toList)
          ⟨some "fw".toList, some "pr".toList, some ["l1".toList],
            some "A=1".toList, some "inst".toList⟩
          ⟨some "fw".toList, some "pr".toList, some ["l1".toList],
            some "A=1".toList, some "inst".toList⟩) allFields
        ++ [printSetting (deriveRemapping "/s.ini".toList "/s.ini".toList)
              "FPRIME_SETTINGS_FILE".toList "/s.ini".toList []] ∧
    (∀ f : FieldName, f ≠ FieldName.default_cmake_options →
      (fieldOut (deriveRemapping "/s.ini".toList "/s.ini".toList)
          ⟨some "fw".toList, some "pr".toList, some ["l1".toList],
            some "A=1".toList, some "inst".toList⟩
          ⟨some "fw".toList, some "pr".toList, some ["l1".toList],
            some "A=1".toList, some "inst".toList⟩ f).length =
        if fieldAbsentB
            ⟨some "fw".toList, some "pr".toList, some ["l1".toList],
              some "A=1".toList, some "inst".toList⟩
            ⟨some "fw".toList, some "pr".toList, some ["l1".toList],
              some "A=1".toList, some "inst".toList⟩ f then 0 else 1) :=
  C1_amended "/s.ini".toList "/s.ini".toList
    ⟨some "fw".toList, some "pr".toList, some ["l1".toList],
      some "A=1".toList, some "inst".toList⟩
    ⟨some "fw".toList, some "pr".toList, some ["l1".toList],
      some "A=1".toList, some "inst".toList⟩ rfl rfl rfl rfl rfl

/-- C2: if a generator-critical field is present in both variants with
differing values, the run aborts: the exit status is 1, the fields of the
loop split as a prefix `l1` of non-mismatching fields followed by the
aborting field `g` (with the mismatching field `f` at `g` or later), stdout
holds only the records of the fields before `g` — so no record for `f`, for
any later field, or for the trailing settings-file record — and stderr ends
with the assertion message. -/
theorem C2_variant_mismatch (iniPath iniRealPath : Str) (s sut : ResolvedSettings)
    (f : FieldName) (hf : fieldMismatchB s sut f = true) :
    (runMain iniPath iniRealPath s sut).exitCode = 1 ∧
    ∃ l1 g l2, allFields = l1 ++ g :: l2 ∧ f ∈ g :: l2 ∧
      (∀ x ∈ l1, fieldMismatchB s sut x = false) ∧
      (runMain iniPath iniRealPath s sut).out =
        catMap (fieldOut (deriveRemapping iniPath iniRealPath) s sut) l1 ∧
      (runMain iniPath iniRealPath s sut).err =
        catMap (fieldErr s sut) l1 ++ [assertMsg ++ ['\n']] := by
  obtain ⟨l1, g, l2, heq, hg, hl1⟩ :=
    exists_first_true (fieldMismatchB s sut) allFields ⟨f, mem_allFields f, hf⟩
  have habort := processFields_abort (deriveRemapping iniPath iniRealPath) s sut l1 g l2 hl1 hg
  have hrun : runMain iniPath iniRealPath s sut =
      ⟨catMap (fieldOut (deriveRemapping iniPath iniRealPath) s sut) l1,
        catMap (fieldErr s sut) l1 ++ [assertMsg ++ ['\n']], 1⟩ := by
    simp [runMain, heq, habort]
  have hfmem : f ∈ g :: l2 := by
    have hmem : f ∈ l1 ++ g :: l2 := heq ▸ mem_allFields f
    rcases List.mem_append.mp hmem with h | h
    · rw [hl1 f h] at hf; cases hf
    · exact h
  exact ⟨by rw [hrun], l1, g, l2, heq, hfmem, hl1, by rw [hrun], by rw [hrun]⟩

/-- C2 witness: a concrete pair mismatching on `framework_path`: the run
exits 1, emits no stdout record at all, and stderr ends with the assertion
message. -/
theorem C2_variant_mismatch_witness :
    fieldMismatchB ⟨some "a".toList, none, none, none, none⟩
        ⟨some "b".toList, none, none, none, none⟩ FieldName.framework_path = true ∧
    ((runMain "/s.ini".toList "/s.ini".toList
        ⟨some "a".toList, none, none, none, none⟩
        ⟨some "b".toList, none, none, none, none⟩).exitCode = 1 ∧
      ∃ l1 g l2, allFields = l1 ++ g :: l2 ∧ FieldName.framework_path ∈ g :: l2 ∧
        (∀ x ∈ l1, fieldMismatchB ⟨some "a".toList, none, none, none, none⟩
            ⟨some "b".toList, none, none, none, none⟩ x = false) ∧
        (runMain "/s.ini".toList "/s.ini".toList
            ⟨some "a".toList, none, none, none, none⟩
            ⟨some "b".toList, none, none, none, none⟩).out =
          catMap (fieldOut (deriveRemapping "/s.ini".toList "/s.ini".toList)
              ⟨some "a".toList, none, none, none, none⟩
              ⟨some "b".toList, none, none, none, none⟩) l1 ∧
        (runMain "/s.ini".toList "/s.ini".toList
            ⟨some "a".toList, none, none, none, none⟩
            ⟨some "b".toList, none, none, none, none⟩).err =
          catMap (fieldErr ⟨some "a".toList, none, none, none, none⟩
              ⟨some "b".toList, none, none, none, none⟩) l1 ++ [assertMsg ++ ['\n']]) :=
  ⟨by decide,
    C2_variant_mismatch "/s.ini".toList "/s.ini".toList
      ⟨some "a".toList, none, none, none, none⟩
      ⟨some "b".toList, none, none, none, none⟩ FieldName.framework_path (by decide)⟩

/-- C3 counterexample: with the settings file given as `proj/settings.ini`
and resolved to `/home/u/proj/settings.ini` (remapping `/home/u/ → ` empty)
and library locations `/home/u/proj/lib1`, `/home/u/proj/lib2`, the emitted
record is NOT `FPRIME_LIBRARY_LOCATIONS=proj/lib1;proj/lib2;`: the join
separator `;` is escaped, because `print_setting` escapes the already-joined
value. -/
theorem C3_counterexample :
    "FPRIME_LIBRARY_LOCATIONS=proj/lib1;proj/lib2;".toList ∉
      (runMain "proj/settings.ini".toList "/home/u/proj/settings.ini".toList
        ⟨none, none, some ["/home/u/proj/lib1".toList, "/home/u/proj/lib2".toList],
          none, none⟩
        ⟨none, none, some ["/home/u/proj/lib1".toList, "/home/u/proj/lib2".toList],
          none, none⟩).out := by decide

/-- C3 (amended): in the spec's example the two library paths are joined
with `;` into one value, the joined value is then escaped and remapped, so
the single emitted record is `FPRIME_LIBRARY_LOCATIONS=proj/lib1\;proj/lib2;`
(escaped separator, trailing `;` delimiter), followed only by the trailing
settings-file record. -/
theorem C3_amended :
    (runMain "proj/settings.ini".toList "/home/u/proj/settings.ini".toList
        ⟨none, none, some ["/home/u/proj/lib1".toList, "/home/u/proj/lib2".toList],
          none, none⟩
        ⟨none, none, some ["/home/u/proj/lib1".toList, "/home/u/proj/lib2".toList],
          none, none⟩).out =
      ["FPRIME_LIBRARY_LOCATIONS=proj/lib1\\;proj/lib2;".toList,
       "FPRIME_SETTINGS_FILE=proj/settings.ini".toList] := by decide

/-- C4 counterexample: `project_root` is absent from both variants, but the
run aborts on the earlier `framework_path` mismatch: the exit status is 1,
not 0, and no warning naming `project_root` is ever written. -/
theorem C4_counterexample :
    fieldAbsentB ⟨some "a".toList, none, none, none, none⟩
        ⟨some "b".toList, none, none, none, none⟩ FieldName.project_root = true ∧
    (runMain "/s.ini".toList "/s.ini".toList
        ⟨some "a".toList, none, none, none, none⟩
        ⟨some "b".toList, none, none, none, none⟩).exitCode = 1 ∧
    warnChunk FieldName.project_root ∉
      (runMain "/s.ini".toList "/s.ini".toList
        ⟨some "a".toList, none, none, none, none⟩
        ⟨some "b".toList, none, none, none, none⟩).err := by
  refine ⟨by decide, by decide, by decide⟩

/-- C4 (amended): in a run where no generator-critical field mismatches
between the variants, every field absent from either variant produces a
warning naming it on stderr and no stdout record, all other fields are
processed normally (the output is the per-field records in order plus the
trailing settings-file record), and the exit status is 0. -/
theorem C4_missing_field (iniPath iniRealPath : Str) (s sut : ResolvedSettings)
    (f : FieldName)
    (hnm : ∀ g : FieldName, fieldMismatchB s sut g = false)
    (habs : fieldAbsentB s sut f = true) :
    (runMain iniPath iniRealPath s sut).exitCode = 0 ∧
    warnChunk f ∈ (runMain iniPath iniRealPath s sut).err ∧
    fieldOut (deriveRemapping iniPath iniRealPath) s sut f = [] ∧
    (runMain iniPath iniRealPath s sut).out =
      catMap (fieldOut (deriveRemapping iniPath iniRealPath) s sut) allFields
        ++ [printSetting (deriveRemapping iniPath iniRealPath)
              "FPRIME_SETTINGS_FILE".toList iniPath []] := by
  have hr := runMain_ok iniPath iniRealPath s sut (fun g _ => hnm g)
  refine ⟨by rw [hr], ?_, fieldOut_eq_nil_of_absent _ habs, by rw [hr]⟩
  rw [hr]
  exact mem_catMap (mem_allFields f)
    (by rw [fieldErr_of_absent habs]; exact List.mem_singleton.mpr rfl)

/-- C4 witness: `framework_path` present only in the build variant; with no
mismatch anywhere the run warns about it, emits no record for it, and exits
0. -/
theorem C4_missing_field_witness :
    (runMain "/s.ini".toList "/s.ini".toList
        ⟨some "fw".toList, some "pr".toList, none, none, none⟩
        ⟨none, some "pr".toList, none, none, none⟩).exitCode = 0 ∧
    warnChunk FieldName.framework_path ∈
      (runMain "/s.ini".toList "/s.ini".toList
        ⟨some "fw".toList, some "pr".toList, none, none, none⟩
        ⟨none, some "pr".toList, none, none, none⟩).err ∧
    fieldOut (deriveRemapping "/s.ini".toList "/s.ini".toList)
        ⟨some "fw".toList, some "pr".toList, none, none, none⟩
        ⟨none, some "pr".toList, none, none, none⟩ FieldName.framework_path = [] ∧
    (runMain "/s.ini".toList "/s.ini".toList
        ⟨some "fw".toList, some "pr".toList, none, none, none⟩
        ⟨none, some "pr".toList, none, none, none⟩).out =
      catMap (fieldOut (deriveRemapping "/s.ini".toList "/s.ini".toList)
          ⟨some "fw".toList, some "pr".toList, none, none, none⟩
          ⟨none, some "pr".toList, none, none, none⟩) allFields
        ++ [printSetting (deriveRemapping "/s.ini".toList "/s.ini".toList)
              "FPRIME_SETTINGS_FILE".toList "/s.ini".toList []] :=
  C4_missing_field "/s.ini".toList "/s.ini".toList
    ⟨some "fw".toList, some "pr".toList, none, none, none⟩
    ⟨none, some "pr".toList, none, none, none⟩ FieldName.framework_path
    (by decide) (by decide)

/-- C7 counterexample: a settings path containing a literal `;` is escaped
in the trailing record: the run emits `FPRIME_SETTINGS_FILE=pro\;j/settings.ini`,
not the path exactly as given — `print_setting` applies escaping (and the
remapping) to the trailing record like to any other value. -/
theorem C7_counterexample :
    (runMain "pro;j/settings.ini".toList "/h/pro;j/settings.ini".toList
        ⟨none, none, none, none, none⟩ ⟨none, none, none, none, none⟩).out =
      ["FPRIME_SETTINGS_FILE=pro\\;j/settings.ini".toList] ∧
    "FPRIME_SETTINGS_FILE=pro;j/settings.ini".toList ∉
      (runMain "pro;j/settings.ini".toList "/h/pro;j/settings.ini".toList
        ⟨none, none, none, none, none⟩ ⟨none, none, none, none, none⟩).out := by
  refine ⟨by decide, by decide⟩

/-- C7 (amended): for every invocation that reaches the end of the field
loop (no variant mismatch), the last emitted record is
`FPRIME_SETTINGS_FILE=` followed by the given settings path with the same
semicolon escaping and path remapping applied to every emitted value, and
with no trailing `;` delimiter appended (`ending=""`). -/
theorem C7_settings_file_record (iniPath iniRealPath : Str) (s sut : ResolvedSettings)
    (h : ∀ g : FieldName, fieldMismatchB s sut g = false) :
    ∃ pre, (runMain iniPath iniRealPath s sut).out =
      pre ++ ["FPRIME_SETTINGS_FILE=".toList
        ++ applyRemap (deriveRemapping iniPath iniRealPath) (escapeSemis iniPath)] := by
  have hr := runMain_ok iniPath iniRealPath s sut (fun g _ => h g)
  refine ⟨catMap (fieldOut (deriveRemapping iniPath iniRealPath) s sut) allFields, ?_⟩
  rw [hr, settingsFileRecord]

/-- C7 witness: a concrete completed run whose last record carries the
escaped, remapped settings path with nothing appended. -/
theorem C7_settings_file_record_witness :
    ∃ pre, (runMain "proj/settings.ini".toList "/home/u/proj/settings.ini".toList
        ⟨some "/home/u/fw".toList, none, none, none, none⟩
        ⟨some "/home/u/fw".toList, none, none, none, none⟩).out =
      pre ++ ["FPRIME_SETTINGS_FILE=".toList
        ++ applyRemap (deriveRemapping "proj/settings.ini".toList
              "/home/u/proj/settings.ini".toList)
            (escapeSemis "proj/settings.ini".toList)] :=
  C7_settings_file_record "proj/settings.ini".toList "/home/u/proj/settings.ini".toList
    ⟨some "/home/u/fw".toList, none, none, none, none⟩
    ⟨some "/home/u/fw".toList, none, none, none, none⟩ (by decide)


end IniToStdio
